import Mathlib

/-!
Shallow embedding of `man-to-anki` (files `man-to-anki.py` and
`ankiconnect.py`): an HTML node model mirroring the BeautifulSoup
operations the tool uses, the description and option extractors, the
AnkiConnect response validation, argument handling and the two
note-creating branches of `main`.
-/

namespace ManToAnki

/-- An HTML node: either raw text (a `NavigableString`) or a tag with a
list of child nodes.  Attributes are irrelevant to every operation the
tool performs and are omitted. -/
inductive Node where
  | text (s : String)
  | tag (name : String) (children : List Node)

/-- `Tag.contents`: the list of direct children (empty for a string). -/
def Node.contents : Node → List Node
  | .text _ => []
  | .tag _ cs => cs

mutual

/-- All tags named `name` in the subtree rooted at `n`, the node itself
included, in document (pre-)order: the recursive search of
BeautifulSoup `find_all`. -/
def nodeFindAll (name : String) : Node → List Node
  | .text _ => []
  | .tag t cs => (if t = name then [Node.tag t cs] else []) ++ listFindAll name cs

/-- `find_all(name)` over a list of sibling subtrees, in document order. -/
def listFindAll (name : String) : List Node → List Node
  | [] => []
  | n :: rest => nodeFindAll name n ++ listFindAll name rest

end

/-- `soup.find(name)`: the first matching tag in document order, if any. -/
def findFirst (name : String) (doc : List Node) : Option Node :=
  (listFindAll name doc).head?

/-- BeautifulSoup `Tag.string`: a `NavigableString` is its own string; a
tag with exactly one child has its child's string; any other tag
(zero children, or two or more) has none. -/
def tagStringOpt : Node → Option String
  | .text s => some s
  | .tag _ [c] => tagStringOpt c
  | .tag _ (_ :: _ :: _) => none
  | .tag _ [] => none

mutual

/-- Python `str(node)`: the node rendered back to markup text. -/
def nodeStr : Node → String
  | .text s => s
  | .tag t cs => "<" ++ t ++ ">" ++ listStr cs ++ "</" ++ t ++ ">"

/-- Concatenated rendering of a list of nodes, as `"".join(map(str, ...))`. -/
def listStr : List Node → String
  | [] => ""
  | n :: rest => nodeStr n ++ listStr rest

end

/-- Python `str` applied to an optional string: `str(None)` is `"None"`. -/
def pyStrOfOpt : Option String → String
  | none => "None"
  | some s => s

/-- Python regex `\s`: a whitespace character (ASCII set). -/
def isPySpace (c : Char) : Bool :=
  c == ' ' || c == '\t' || c == '\n' || c == '\r' || c == '\x0b' || c == '\x0c'

/-- The characters of the regex class `[-â€”]` at `man-to-anki.py:75`.
The source file stores the intended em-dash as the three mojibake
characters `â`, `€`, `”` (U+00E2, U+20AC, U+201D), so those are what the
class matches; a genuine em-dash `—` (U+2014) is not in the class. -/
def isSepDash (c : Char) : Bool :=
  c == '-' || c == 'â' || c == '€' || c == '”'

/-- `re.search` of the pattern `\s[-â€”]\s(.*)` over a character list:
scan left to right for whitespace, a class character, whitespace, and
capture the remainder of that line (`.` does not cross a newline).
Returns `group(1)` of the leftmost match. -/
def searchSep : List Char → Option (List Char)
  | c1 :: c2 :: c3 :: rest =>
    if isPySpace c1 && isSepDash c2 && isPySpace c3 then
      some (rest.takeWhile (fun c => !(c == '\n')))
    else searchSep (c2 :: c3 :: rest)
  | _ => none

/-- `first_letter_capitalize` (`man-to-anki.py:62`): first character
uppercased, rest unchanged.  (In Python the empty string would raise an
`IndexError`; every call site guards against it.) -/
def first_letter_capitalize (s : String) : String :=
  match s.toList with
  | [] => ""
  | c :: cs => String.mk (c.toUpper :: cs)

/-- `get_one_liner` (`man-to-anki.py:70`): take the first `p` tag; if
there is none, return the interactively entered line; otherwise run the
separator regex over `str(line.string)` and return the captured group,
falling back to the interactive line when there is no match.
`oneLinerInput` stands for what `input_one_liner()` would read. -/
def get_one_liner (doc : List Node) (oneLinerInput : String) : String :=
  match findFirst "p" doc with
  | none => oneLinerInput
  | some line =>
    match searchSep ((pyStrOfOpt (tagStringOpt line)).toList) with
    | some rest => String.mk rest
    | none => oneLinerInput

/-- Does a `dt` tag match the option flag?  `get_option_dt`'s inner loop
(`man-to-anki.py:87`): scan every `strong` tag inside the `dt` and test
`strong.string == option` (a `None` string never equals a flag). -/
def dtMatches (option : String) (dt : Node) : Bool :=
  (listFindAll "strong" dt.contents).any (fun s => tagStringOpt s == some option)

mutual

/-- `get_option_dt` (`man-to-anki.py:83`) on one subtree, fused with the
sibling context that BeautifulSoup keeps on each tag: `rest` is the list
of the node's following siblings, returned alongside a matching `dt`
(`find_next_sibling` needs it). -/
def nodeFindDt (option : String) : Node → List Node → Option (Node × List Node)
  | .text _, _ => none
  | .tag t cs, rest =>
    if t = "dt" ∧ dtMatches option (.tag t cs) = true then some (.tag t cs, rest)
    else findDtWithRest option cs

/-- `get_option_dt` over a list of sibling subtrees: the first matching
`dt` in document order, with its following siblings; `none` when no `dt`
in the forest matches. -/
def findDtWithRest (option : String) : List Node → Option (Node × List Node)
  | [] => none
  | n :: rest =>
    match nodeFindDt option n rest with
    | some r => some r
    | none => findDtWithRest option rest

end

/-- `find_next_sibling(name)`: the first following sibling that is a tag
named `name`, skipping strings and other tags. -/
def findNextSibling (name : String) : List Node → Option Node
  | [] => none
  | .text _ :: rest => findNextSibling name rest
  | .tag t cs :: rest =>
    if t = name then some (.tag t cs) else findNextSibling name rest

/-- `get_option_title` (`man-to-anki.py:94`): the concatenated markup of
the `dt`'s children, or the interactively entered title when empty. -/
def get_option_title (dt : Node) (titleInput : String) : String :=
  let title := listStr dt.contents
  if title = "" then titleInput else title

/-- `get_option_description` (`man-to-anki.py:102`): next-sibling `dd`,
its first `p`, the concatenation of that paragraph's children; prompt on
a miss at any step or on an empty concatenation, else capitalize the
first letter.  `dtSiblings` are the matched `dt`'s following siblings;
`descInput` stands for what `input_option_description` would read. -/
def get_option_description (dtSiblings : List Node) (descInput : String) : String :=
  match findNextSibling "dd" dtSiblings with
  | none => descInput
  | some dd =>
    match findFirst "p" dd.contents with
    | none => descInput
    | some p =>
      let description := listStr p.contents
      if description = "" then descInput
      else first_letter_capitalize description

/-- `get_option_info` (`man-to-anki.py:125`): locate the option's `dt`;
if none matches, return the interactively entered title and description;
otherwise extract both fields from the matched term. -/
def get_option_info (doc : List Node) (option : String)
    (titleInput descInput : String) : String × String :=
  match findDtWithRest option doc with
  | none => (titleInput, descInput)
  | some (dt, rest) =>
    (get_option_title dt titleInput, get_option_description rest descInput)

/-! ## AnkiConnect client (`ankiconnect.py`) -/

/-- A JSON value, as far as the AnkiConnect responses need. -/
inductive JVal where
  | null
  | str (s : String)
  | num (n : Int)
  | boolean (b : Bool)
deriving DecidableEq, Repr

/-- Python `str(Exception(v))` for the values a response error field can
hold: the message the raised exception carries. -/
def jvalMessage : JVal → String
  | .null => "None"
  | .str s => s
  | .num n => toString n
  | .boolean true => "True"
  | .boolean false => "False"

/-- Key lookup in a parsed JSON object (`response_table[k]`, with
`k in response_table` deciding presence). -/
def lookupField (tbl : List (String × JVal)) (k : String) : Option JVal :=
  (tbl.find? (fun kv => kv.1 == k)).map (fun kv => kv.2)

/-- The response-validation tail of `invoke_anki_connect`
(`ankiconnect.py:28`): require exactly two fields, an `error` and a
`result` field; raise the store's own error when `error` is non-null;
otherwise return the `result` value. -/
def parse_anki_response (tbl : List (String × JVal)) : Except String JVal :=
  if tbl.length ≠ 2 then
    .error "response has an unexpected number of fields"
  else
    match lookupField tbl "error" with
    | none => .error "response is missing required error field"
    | some e =>
      match lookupField tbl "result" with
      | none => .error "response is missing required result field"
      | some r =>
        if e = JVal.null then .ok r else .error (jvalMessage e)

/-- The HTTP response `requests.post` hands back: whether the status was
a success (so that `raise_for_status` does not raise), and the parsed
JSON body. -/
structure HttpResponse where
  statusOk : Bool
  body : List (String × JVal)

/-- Outcome of one `invoke_anki_connect` call: whether the transport
diagnostic was printed, and what the function then does with the body. -/
structure InvokeOutcome where
  reportedTransportError : Bool
  result : Except String JVal

/-- `invoke_anki_connect` (`ankiconnect.py:14`): a failing status is
caught and printed (`ankiconnect.py:23`), after which the body is parsed
and validated exactly as for a successful status. -/
def invoke_anki_connect (resp : HttpResponse) : InvokeOutcome :=
  { reportedTransportError := !resp.statusOk
    result := parse_anki_response resp.body }

/-! ## Argument handling and the note-creating branches of `main` -/

/-- Python `range(a, b)` as a list of integers. -/
def pyRange (a b : Int) : List Int :=
  (List.range (b - a).toNat).map (fun i => a + (i : Int))

/-- The `choices=range(1, 9)` constraint on the positional `section`
argument (`man-to-anki.py:24`). -/
def sectionChoices : List Int := pyRange 1 9

/-- argparse validation of `section`: accepted iff it is among the
declared choices. -/
def section_accepted (n : Int) : Bool := sectionChoices.contains n

/-- `args.tags` when `-t` (`--tags`) is omitted: argparse stores `None` for
an optional argument declared without a default (`man-to-anki.py:47`). -/
def tags_when_omitted : Option (List String) := none

/-- Flag normalization in `main`'s option loop (`man-to-anki.py:242`):
one dash for a single-character flag, two dashes otherwise. -/
def normalize_option (o : String) : String :=
  if o.length = 1 then "-" ++ o else "--" ++ o

/-- The configuration fields `main` reads from `config.json`. -/
structure Config where
  deck : String
  tagsOneLiner : List String
  tagsOptionDescription : List String
  hintOneLiner : String
  hintSubcommandOneLiner : String
  hintOptionDescription : String
  hintSubcommandOptionDescription : String

/-- The note `add_note` (`man-to-anki.py:170`) sends to the store. -/
structure Note where
  deckName : String
  modelName : String
  front : String
  back : String
  hint : String
  links : String
  tags : List String

/-- Python list concatenation `a + b` where `b` may be `None`: a
`TypeError` when it is. -/
def pyListConcat (a : List String) : Option (List String) →
    Except String (List String)
  | none => .error "TypeError: can only concatenate list to list"
  | some b => .ok (a ++ b)

/-- The `args.description` branch of `main` (`man-to-anki.py:221`):
build the back text and hint, extract the front with `get_one_liner`,
concatenate the configured tags with `args.tags`, and send the note.
The result is the note handed to `add_note`, or the uncaught `TypeError`
raised while evaluating `tags` when `args.tags` is `None`. -/
def run_description_branch (cfg : Config) (doc : List Node) (page : String)
    (subcommand : Option (String × String)) (argTags : Option (List String))
    (link : String) (oneLinerInput : String) : Except String Note :=
  let back := match subcommand with
    | some (c, s) => c ++ " " ++ s
    | none => page
  let hint := match subcommand with
    | some _ => cfg.hintSubcommandOneLiner
    | none => cfg.hintOneLiner
  match pyListConcat cfg.tagsOneLiner argTags with
  | .error e => .error e
  | .ok tags =>
    .ok { deckName := cfg.deck, modelName := "Basic",
          front := get_one_liner doc oneLinerInput, back := back,
          hint := hint, links := link, tags := tags }

/-- One iteration of the `args.option` loop of `main`
(`man-to-anki.py:240`): normalize the flag, extract title and
description, and send the note, the description as the front and the
title as the back; the tag concatenation raises when `args.tags` is
`None`. -/
def run_option_branch_one (cfg : Config) (doc : List Node) (option : String)
    (subcommand : Option (String × String)) (argTags : Option (List String))
    (link : String) (titleInput descInput : String) : Except String Note :=
  let opt := normalize_option option
  let info := get_option_info doc opt titleInput descInput
  let hint := match subcommand with
    | some _ => cfg.hintSubcommandOptionDescription
    | none => cfg.hintOptionDescription
  match pyListConcat cfg.tagsOptionDescription argTags with
  | .error e => .error e
  | .ok tags =>
    .ok { deckName := cfg.deck, modelName := "Basic",
          front := info.2, back := info.1,
          hint := hint, links := link, tags := tags }

/-- Does the description extraction miss (no `p` tag, or no separator
match), so that `get_one_liner` falls back to the interactive prompt? -/
def descriptionExtractionMisses (doc : List Node) : Bool :=
  match findFirst "p" doc with
  | none => true
  | some line => (searchSep ((pyStrOfOpt (tagStringOpt line)).toList)).isNone

/-! ## Helper lemmas -/

/-- The declared section choices evaluate to the integers 1 through 8:
Python `range(1, 9)` excludes its upper bound. -/
theorem sectionChoices_eval : sectionChoices = [1, 2, 3, 4, 5, 6, 7, 8] := rfl

/-- Everything `find_all(name)` returns is a tag with that name. -/
theorem listFindAll_mem_shape (name : String) (l : List Node) :
    ∀ m ∈ listFindAll name l, ∃ cs, m = Node.tag name cs := by
  refine listFindAll.induct name
    (fun n => ∀ m ∈ nodeFindAll name n, ∃ cs, m = Node.tag name cs)
    (fun l => ∀ m ∈ listFindAll name l, ∃ cs, m = Node.tag name cs)
    ?_ ?_ ?_ ?_ l
  · intro s m hm
    simp [nodeFindAll] at hm
  · intro t cs ih m hm
    simp only [nodeFindAll] at hm
    rcases List.mem_append.mp hm with h | h
    · by_cases ht : t = name
      · rw [if_pos ht] at h
        simp at h
        exact ⟨cs, by rw [h, ht]⟩
      · rw [if_neg ht] at h
        simp at h
    · exact ih m h
  · intro m hm
    simp [listFindAll] at hm
  · intro n rest ih1 ih2 m hm
    simp only [listFindAll] at hm
    rcases List.mem_append.mp hm with h | h
    · exact ih1 m h
    · exact ih2 m h

/-- The scanning loop of `get_option_dt` returns exactly the first
matching `dt` of the `find_all("dt")` document-order traversal. -/
theorem findDt_eq_first_match (option : String) (doc : List Node) :
    (findDtWithRest option doc).map Prod.fst =
      (listFindAll "dt" doc).find? (dtMatches option) := by
  refine findDtWithRest.induct option
    (fun n rest => (nodeFindDt option n rest).map Prod.fst =
      (nodeFindAll "dt" n).find? (dtMatches option))
    (fun l => (findDtWithRest option l).map Prod.fst =
      (listFindAll "dt" l).find? (dtMatches option))
    ?_ ?_ ?_ ?_ ?_ ?_ doc
  · intro s _
    simp [nodeFindDt, nodeFindAll]
  · intro t cs rest h
    obtain ⟨ht, hm⟩ := h
    subst ht
    simp [nodeFindDt, nodeFindAll, hm]
  · intro t cs rest hneg ih
    simp only [nodeFindDt, if_neg hneg, nodeFindAll]
    by_cases ht : t = "dt"
    · subst ht
      have hm : dtMatches option (Node.tag "dt" cs) = false := by
        cases hdm : dtMatches option (Node.tag "dt" cs) with
        | true => exact absurd ⟨rfl, hdm⟩ hneg
        | false => rfl
      rw [if_pos rfl]
      rw [List.cons_append, List.nil_append,
        List.find?_cons_of_neg _ (by simp [hm])]
      exact ih
    · rw [if_neg ht, List.nil_append]
      exact ih
  · simp [findDtWithRest, listFindAll]
  · intro n rest r hsome ih
    simp only [findDtWithRest, hsome, listFindAll, List.find?_append]
    rw [← ih, hsome]
    rfl
  · intro n rest hnone ih1 ih2
    simp only [findDtWithRest, hnone, listFindAll, List.find?_append]
    rw [← ih1, ← ih2, hnone]
    rfl

/-! ## Claim theorems -/

/-- C4: the option extractor selects the first definition-term element
of the document-order `dt` traversal containing a `strong` element whose
exact string equals the flag (first match wins — the scan returns that
term and its sibling context); when no `dt` in the whole document
matches, both the title and the description are taken verbatim from the
interactive prompts. -/
theorem option_first_match_wins :
    (∀ doc option, (findDtWithRest option doc).map Prod.fst =
        (listFindAll "dt" doc).find? (dtMatches option)) ∧
    (∀ doc option tIn dIn,
      (listFindAll "dt" doc).find? (dtMatches option) = none →
      get_option_info doc option tIn dIn = (tIn, dIn)) := by
  refine ⟨fun doc option => findDt_eq_first_match option doc, ?_⟩
  intro doc option tIn dIn h
  have h2 := findDt_eq_first_match option doc
  rw [h] at h2
  unfold get_option_info
  cases hf : findDtWithRest option doc with
  | none => rfl
  | some r =>
    rw [hf] at h2
    simp at h2

/-- Witness: a document whose only `dt` declares `-a` yields the typed
title and description for the unmatched flag `-z`. -/
theorem option_first_match_wins_witness :
    get_option_info [Node.tag "dt" [Node.tag "strong" [Node.text "-a"]]]
      "-z" "typed title" "typed description" =
      ("typed title", "typed description") :=
  option_first_match_wins.2 _ "-z" _ _ rfl

/-- C10: whenever the first paragraph-level element of the document has
more than one child node, its BeautifulSoup string content is undefined
(`None`), the separator regex runs over the text `"None"` and cannot
match, and `get_one_liner` returns the interactively entered line — even
when the concatenation of the children would contain a well-formed
separator. -/
theorem multi_child_paragraph_falls_back (doc : List Node) (p : Node)
    (oneIn : String) (hp : findFirst "p" doc = some p)
    (hlen : 1 < p.contents.length) :
    get_one_liner doc oneIn = oneIn := by
  have hmem : p ∈ listFindAll "p" doc := by
    unfold findFirst at hp
    cases h : listFindAll "p" doc with
    | nil => rw [h] at hp; simp at hp
    | cons a t =>
      rw [h] at hp
      simp at hp
      rw [hp]
      exact List.mem_cons_self p t
  obtain ⟨cs, rfl⟩ := listFindAll_mem_shape "p" doc p hmem
  have hstr : tagStringOpt (Node.tag "p" cs) = none := by
    match cs, hlen with
    | c1 :: c2 :: rest, _ => rfl
  have hred : get_one_liner doc oneIn =
      match searchSep ((pyStrOfOpt (tagStringOpt (Node.tag "p" cs))).toList) with
      | some rest => String.mk rest
      | none => oneIn := by
    unfold get_one_liner
    rw [hp]
  rw [hred, hstr]
  rfl

/-- Witness: a first paragraph split into the two text children `ls `
and `- list files` — whose concatenated text contains a well-formed
separator — still falls back to the interactive line. -/
theorem multi_child_paragraph_falls_back_witness :
    1 < (Node.tag "p" [Node.text "ls ",
          Node.text "- list files"]).contents.length ∧
    get_one_liner [Node.tag "p" [Node.text "ls ", Node.text "- list files"]]
      "typed by hand" = "typed by hand" :=
  ⟨by decide, multi_child_paragraph_falls_back _ _ _ rfl (by decide)⟩

/-- Capitalizing leaves everything after the first character unchanged. -/
theorem first_letter_capitalize_tail (s : String) :
    (first_letter_capitalize s).toList.tail = s.toList.tail := by
  unfold first_letter_capitalize
  cases h : s.toList with
  | nil => rfl
  | cons c cs => rfl

/-- C5: for a matched definition term, the description is read from the
term's next sibling `dd` (interactive prompt when absent), then from
that element's first `p` (prompt when absent), then from the
concatenation of the paragraph's child renderings (prompt when the
concatenation is empty); a non-empty concatenation is returned with its
first letter capitalized and everything after the first character —
inline markup included — unchanged. -/
theorem option_description_steps (sibs : List Node) (dIn : String) :
    (findNextSibling "dd" sibs = none →
      get_option_description sibs dIn = dIn) ∧
    (∀ dd, findNextSibling "dd" sibs = some dd →
      (findFirst "p" dd.contents = none →
        get_option_description sibs dIn = dIn) ∧
      (∀ p, findFirst "p" dd.contents = some p →
        (listStr p.contents = "" →
          get_option_description sibs dIn = dIn) ∧
        (listStr p.contents ≠ "" →
          get_option_description sibs dIn =
            first_letter_capitalize (listStr p.contents) ∧
          (get_option_description sibs dIn).toList.tail =
            (listStr p.contents).toList.tail))) := by
  refine ⟨?_, ?_⟩
  · intro h
    simp [get_option_description, h]
  · intro dd hdd
    refine ⟨?_, ?_⟩
    · intro h
      simp [get_option_description, hdd, h]
    · intro p hp
      refine ⟨?_, ?_⟩
      · intro h
        simp [get_option_description, hdd, hp, h]
      · intro h
        have heq : get_option_description sibs dIn =
            first_letter_capitalize (listStr p.contents) := by
          simp [get_option_description, hdd, hp, h]
        exact ⟨heq, by rw [heq]; exact first_letter_capitalize_tail _⟩

/-- Witness for the description extraction: no sibling `dd` yields the
typed description; a `dd` whose paragraph mixes text and markup yields
the capitalized concatenation with the markup preserved. -/
theorem option_description_steps_witness :
    get_option_description [] "typed description" = "typed description" ∧
    get_option_description
      [Node.text "\n", Node.tag "dd" [Node.tag "p"
        [Node.text "use the given ", Node.tag "em" [Node.text "msg"]]]]
      "unused" = "Use the given <em>msg</em>" := by
  refine ⟨(option_description_steps [] "typed description").1 rfl, ?_⟩
  exact ((((option_description_steps
    [Node.text "\n", Node.tag "dd" [Node.tag "p"
      [Node.text "use the given ", Node.tag "em" [Node.text "msg"]]]]
    "unused").2
    (Node.tag "dd" [Node.tag "p"
      [Node.text "use the given ", Node.tag "em" [Node.text "msg"]]])
    rfl).2
    (Node.tag "p" [Node.text "use the given ", Node.tag "em" [Node.text "msg"]])
    rfl).2 (by decide)).1

/-- Characters before a leftmost separator occurrence do not affect the
regex search. -/
theorem searchSep_cons_not_space (a x y : Char) (l : List Char)
    (ha : isPySpace a = false) :
    searchSep (a :: x :: y :: l) = searchSep (x :: y :: l) := by
  simp [searchSep, ha]

/-- The separator regex on a text whose prefix holds no whitespace:
the match sits at the separator and captures the rest of the line. -/
theorem searchSep_clean_prefix (d : Char) (post : List Char)
    (hd : isSepDash d = true) :
    ∀ pre : List Char, (∀ c ∈ pre, isPySpace c = false) →
      searchSep (pre ++ ' ' :: d :: ' ' :: post) =
        some (post.takeWhile (fun c => !(c == '\n'))) := by
  intro pre
  induction pre with
  | nil =>
    intro _
    simp [searchSep, hd, isPySpace]
  | cons a pre' ih =>
    intro hpre
    have ha : isPySpace a = false := hpre a (List.mem_cons_self a pre')
    obtain ⟨x, y, tl, hxy⟩ :
        ∃ x y tl, pre' ++ ' ' :: d :: ' ' :: post = x :: y :: tl := by
      cases pre' with
      | nil => exact ⟨_, _, _, rfl⟩
      | cons b pre'' =>
        cases pre'' with
        | nil => exact ⟨_, _, _, rfl⟩
        | cons e pre''' => exact ⟨_, _, _, rfl⟩
    rw [List.cons_append, hxy, searchSep_cons_not_space a x y tl ha, ← hxy]
    exact ih (fun c hc => hpre c (List.mem_cons_of_mem a hc))

/-- A line without a newline is captured whole by `(.*)`. -/
theorem takeWhile_no_newline (post : List Char) (h : '\n' ∉ post) :
    post.takeWhile (fun c => !(c == '\n')) = post := by
  induction post with
  | nil => rfl
  | cons c cs ih =>
    have hc : (c == '\n') = false := by
      cases hcc : c == '\n' with
      | false => rfl
      | true =>
        exact absurd (by rw [eq_of_beq hcc]; exact List.mem_cons_self _ _) h
    simp only [List.takeWhile_cons, hc, Bool.not_false, if_true]
    rw [ih (fun hm => h (List.mem_cons_of_mem c hm))]

/-- C1 counterexample: on the first paragraph
`ls - list directory contents` the extractor returns the remainder
without uppercasing its first character, and on a paragraph using a
genuine em-dash (U+2014) separator it does not extract at all (the
source file stores the dash alternative as mojibake), falling back to
the prompt. -/
theorem one_liner_capitalization_cex :
    get_one_liner [Node.tag "p" [Node.text "ls - list directory contents"]]
      "typed" = "list directory contents" ∧
    first_letter_capitalize "list directory contents" ≠
      "list directory contents" ∧
    get_one_liner [Node.tag "p" [Node.text "ls — list directory contents"]]
      "typed" = "typed" :=
  ⟨rfl, by decide, rfl⟩

/-- C1 (amended): for a document whose first paragraph's string is
`pre ⬝ ' ' ⬝ d ⬝ ' ' ⬝ post` with `d` one of the characters actually in
the regex class (`-` or the mojibake characters standing for the
em-dash), no whitespace in the lead and no newline in the remainder, the
extractor returns the remainder exactly as written — its first character
is not uppercased. -/
theorem one_liner_returns_remainder (doc : List Node) (line : Node)
    (oneIn : String) (pre post : List Char) (d : Char)
    (hline : findFirst "p" doc = some line)
    (hs : (pyStrOfOpt (tagStringOpt line)).toList =
      pre ++ ' ' :: d :: ' ' :: post)
    (hd : isSepDash d = true)
    (hpre : ∀ c ∈ pre, isPySpace c = false)
    (hpost : '\n' ∉ post) :
    get_one_liner doc oneIn = String.mk post := by
  have hred : get_one_liner doc oneIn =
      match searchSep ((pyStrOfOpt (tagStringOpt line)).toList) with
      | some rest => String.mk rest
      | none => oneIn := by
    unfold get_one_liner
    rw [hline]
  rw [hred, hs, searchSep_clean_prefix d post hd pre hpre,
    takeWhile_no_newline post hpost]

/-- Witness: `ls - list directory contents` extracts to
`list directory contents`, first letter untouched. -/
theorem one_liner_returns_remainder_witness :
    get_one_liner [Node.tag "p" [Node.text "ls - list directory contents"]]
      "unused" = "list directory contents" :=
  one_liner_returns_remainder
    [Node.tag "p" [Node.text "ls - list directory contents"]]
    (Node.tag "p" [Node.text "ls - list directory contents"])
    "unused" "ls".toList "list directory contents".toList '-'
    rfl rfl rfl (by decide) (by decide)

/-- C2 counterexample: a first paragraph reading `ls - ` matches the
separator pattern with an empty remainder, so the description branch
creates its note with an empty front field — no prompt intervenes. -/
theorem note_nonempty_invariant_cex :
    (run_description_branch
      ⟨"English", ["man"], ["man-option"], "h1", "h2", "h3", "h4"⟩
      [Node.tag "p" [Node.text "ls - "]] "ls" none (some []) "link"
      "unused").map Note.front = Except.ok "" := rfl

/-- C2 (amended): whenever the description extraction misses — no
paragraph element, or no separator match — `get_one_liner` returns
exactly the interactively entered value, and the note the description
branch then creates carries that entered value as its front: execution
blocks on interactive input rather than inventing content.  (The
non-emptiness half of the original claim fails: a matched separator
with an empty remainder, or an empty interactive entry, yields a note
with an empty field.) -/
theorem fallback_fills_missing_front (doc : List Node) (oneIn : String)
    (h : descriptionExtractionMisses doc = true) :
    get_one_liner doc oneIn = oneIn ∧
    ∀ cfg page sub ts link note,
      run_description_branch cfg doc page sub (some ts) link oneIn =
        Except.ok note → note.front = oneIn := by
  have hone : get_one_liner doc oneIn = oneIn := by
    unfold descriptionExtractionMisses at h
    cases hf : findFirst "p" doc with
    | none =>
      unfold get_one_liner
      rw [hf]
    | some line =>
      rw [hf] at h
      simp at h
      have hred : get_one_liner doc oneIn =
          match searchSep ((pyStrOfOpt (tagStringOpt line)).toList) with
          | some rest => String.mk rest
          | none => oneIn := by
        unfold get_one_liner
        rw [hf]
      rw [hred]
      simp only [String.toList]
      rw [h]
  refine ⟨hone, ?_⟩
  intro cfg page sub ts link note hn
  simp only [run_description_branch, pyListConcat] at hn
  cases hn
  simpa using hone

/-- Witness: a document with no paragraph at all gets its front from
the prompt. -/
theorem fallback_fills_missing_front_witness :
    get_one_liner [] "typed one-liner" = "typed one-liner" :=
  (fallback_fills_missing_front [] "typed one-liner" rfl).1

/-- C9: with `-t` (`--tags`) omitted, argparse leaves `args.tags` as
`None`, and each note-creating branch of `main` raises a `TypeError`
while concatenating the configured tag list with `None`, before the
note-store request for that card is sent; with any supplied tag list
both branches build their note — so a note can be created only when
`--tags` is supplied. -/
theorem omitted_tags_block_note_creation :
    tags_when_omitted = none ∧
    (∀ cfg doc page sub link oneIn,
      run_description_branch cfg doc page sub tags_when_omitted link oneIn =
        Except.error "TypeError: can only concatenate list to list") ∧
    (∀ cfg doc o sub link tIn dIn,
      run_option_branch_one cfg doc o sub tags_when_omitted link tIn dIn =
        Except.error "TypeError: can only concatenate list to list") ∧
    (∀ cfg doc page sub ts link oneIn, ∃ note,
      run_description_branch cfg doc page sub (some ts) link oneIn =
        Except.ok note) ∧
    (∀ cfg doc o sub ts link tIn dIn, ∃ note,
      run_option_branch_one cfg doc o sub (some ts) link tIn dIn =
        Except.ok note) := by
  refine ⟨rfl, ?_, ?_, ?_, ?_⟩
  · intro cfg doc page sub link oneIn
    rfl
  · intro cfg doc o sub link tIn dIn
    rfl
  · intro cfg doc page sub ts link oneIn
    exact ⟨_, rfl⟩
  · intro cfg doc o sub ts link tIn dIn
    exact ⟨_, rfl⟩

/-- C6 counterexample: the claim says every section from 1 to 9
inclusive is accepted, but argument validation rejects section 9
(`choices=range(1, 9)` stops at 8); section 1 is accepted, so the
check itself is not vacuous. -/
theorem section_nine_rejected :
    section_accepted 9 = false ∧ section_accepted 1 = true := by decide

/-- C6 (amended): the command-line parser accepts exactly the integer
sections 1 through 8; anything outside that range — 0, 9 or 10
included — is rejected during argument validation. -/
theorem section_validation_range (n : Int) :
    section_accepted n = true ↔ 1 ≤ n ∧ n ≤ 8 := by
  rw [section_accepted, sectionChoices_eval]
  simp [List.contains]
  omega

/-- Witness for the section-range characterization at sections 5 and 9. -/
theorem section_validation_range_witness :
    section_accepted 5 = true ∧ section_accepted 9 ≠ true :=
  ⟨(section_validation_range 5).mpr (by decide),
   fun h => by
    have := (section_validation_range 9).mp h
    omega⟩

/-- C7: every option flag supplied on the command line is normalized
before lookup — one leading dash when the flag is exactly one character
long, two dashes otherwise — and the option branch of `main` queries the
document at the normalized flag. -/
theorem option_flag_normalization :
    (∀ o : String, o.length = 1 → normalize_option o = "-" ++ o) ∧
    (∀ o : String, o.length ≠ 1 → normalize_option o = "--" ++ o) ∧
    (∀ cfg doc o sub ts link tIn dIn note,
      run_option_branch_one cfg doc o sub (some ts) link tIn dIn =
        Except.ok note →
      note.front = (get_option_info doc (normalize_option o) tIn dIn).2 ∧
      note.back = (get_option_info doc (normalize_option o) tIn dIn).1) := by
  refine ⟨?_, ?_, ?_⟩
  · intro o h; simp [normalize_option, h]
  · intro o h; simp [normalize_option, h]
  · intro cfg doc o sub ts link tIn dIn note h
    simp only [run_option_branch_one, pyListConcat] at h
    cases h
    exact ⟨rfl, rfl⟩

/-- Witness for the flag normalization: `m` becomes `-m`, `verbose`
becomes `--verbose`. -/
theorem option_flag_normalization_witness :
    normalize_option "m" = "-m" ∧ normalize_option "verbose" = "--verbose" :=
  ⟨option_flag_normalization.1 "m" rfl,
   option_flag_normalization.2.1 "verbose" (by decide)⟩

/-- C8: at an HTTP error status whose body nevertheless parses as a
well-formed success response, `invoke_anki_connect` prints the transport
diagnostic but still parses the body and returns its result exactly as
if the request had succeeded — the failed request is not fatal. -/
theorem transport_failure_still_returns_result :
    (invoke_anki_connect
      ⟨false, [("error", JVal.null), ("result", JVal.num 42)]⟩
      ).reportedTransportError = true ∧
    (invoke_anki_connect
      ⟨false, [("error", JVal.null), ("result", JVal.num 42)]⟩
      ).result = Except.ok (JVal.num 42) :=
  ⟨rfl, rfl⟩

/-- C3: the response validation of `invoke_anki_connect`, case by case:
a field count other than two, a missing `error` field, or a missing
`result` field each yield the corresponding malformed-response failure;
a non-null `error` field yields a failure carrying the store's own
message; otherwise the `result` value is returned.  In particular
`{"error": null, "result": 12345}` yields `12345` and
`{"error": "deck not found", "result": null}` fails with
`"deck not found"`. -/
theorem response_validation_contract :
    (∀ tbl : List (String × JVal), tbl.length ≠ 2 →
      parse_anki_response tbl =
        Except.error "response has an unexpected number of fields") ∧
    (∀ tbl : List (String × JVal), tbl.length = 2 →
      lookupField tbl "error" = none →
      parse_anki_response tbl =
        Except.error "response is missing required error field") ∧
    (∀ (tbl : List (String × JVal)) (e : JVal), tbl.length = 2 →
      lookupField tbl "error" = some e →
      lookupField tbl "result" = none →
      parse_anki_response tbl =
        Except.error "response is missing required result field") ∧
    (∀ (tbl : List (String × JVal)) (e r : JVal), tbl.length = 2 →
      lookupField tbl "error" = some e →
      lookupField tbl "result" = some r → e ≠ JVal.null →
      parse_anki_response tbl = Except.error (jvalMessage e)) ∧
    (∀ (tbl : List (String × JVal)) (r : JVal), tbl.length = 2 →
      lookupField tbl "error" = some JVal.null →
      lookupField tbl "result" = some r →
      parse_anki_response tbl = Except.ok r) ∧
    parse_anki_response [("error", JVal.null), ("result", JVal.num 12345)] =
      Except.ok (JVal.num 12345) ∧
    parse_anki_response
        [("error", JVal.str "deck not found"), ("result", JVal.null)] =
      Except.error "deck not found" := by
  refine ⟨?_, ?_, ?_, ?_, ?_, rfl, rfl⟩
  · intro tbl h
    simp [parse_anki_response, h]
  · intro tbl h1 h2
    simp [parse_anki_response, h1, h2]
  · intro tbl e h1 h2 h3
    simp [parse_anki_response, h1, h2, h3]
  · intro tbl e r h1 h2 h3 h4
    simp [parse_anki_response, h1, h2, h3, h4]
  · intro tbl r h1 h2 h3
    simp [parse_anki_response, h1, h2, h3]

/-- Witness for the response validation at concrete responses: field
order does not matter for success, a numeric error is stringified, a
one-field response is malformed. -/
theorem response_validation_contract_witness :
    parse_anki_response [("result", JVal.num 7), ("error", JVal.null)] =
      Except.ok (JVal.num 7) ∧
    parse_anki_response [("error", JVal.num 3), ("result", JVal.null)] =
      Except.error "3" ∧
    parse_anki_response [("error", JVal.null)] =
      Except.error "response has an unexpected number of fields" := by
  refine ⟨?_, ?_, ?_⟩
  · exact response_validation_contract.2.2.2.2.1 _ (JVal.num 7) rfl rfl rfl
  · exact response_validation_contract.2.2.2.1 _ (JVal.num 3) JVal.null
      rfl rfl rfl (by decide)
  · exact response_validation_contract.1 _ (by decide)

end ManToAnki
